import Mathlib

/-!
Verification of the DAXPY benchmark program (`src/MP2/main.c`) against its
specification.  Double-precision values are modelled as rationals; where the
behaviour of the C `fabs`/`>` operators on NaN matters, a value is an
`Option ℚ`, with `none` standing for NaN.  Machine stores addressed through
the `double*` arguments are modelled as functions `ℕ → ℚ` gathered in a
state record, so that writes (and only writes) made by each C loop appear
explicitly.
-/

namespace MP2

/-- `#define EPS 1e-9` from `main.c`. -/
def EPS : ℚ := 1 / 1000000000

/-- `#define RUNS 30` from `main.c`. -/
def RUNS : ℕ := 30

/-- The memory visible to the kernels: the output array `z` and the two
input arrays `x` and `y`, each modelled as a total map from indices to
values. -/
@[ext]
structure DState where
  z : ℕ → ℚ
  x : ℕ → ℚ
  y : ℕ → ℚ

/-- The loop of `daxpy_c`: iterations `0, …, k-1` of
`for (i = 0; i < n; ++i) z[i] = A * x[i] + y[i];`.  The `k+1` case runs the
first `k` iterations and then performs the single store of iteration `k`:
an assignment to `z[k]` computed from the current `x[k]` and `y[k]`. -/
def daxpyLoop (A : ℚ) (s : DState) : ℕ → DState
  | 0 => s
  | k + 1 =>
    let s' := daxpyLoop A s k
    { s' with z := Function.update s'.z k (A * s'.x k + s'.y k) }

/-- `daxpy_c(z, x, y, A, n)` from `main.c`: the full loop of `n` iterations
over the state. -/
def daxpy_c (A : ℚ) (n : ℕ) (s : DState) : DState :=
  daxpyLoop A s n

/-- The loop of `init_data`: iterations `0, …, k-1` of
`x[i] = (double)(i % 1000) * 0.001; y[i] = (double)((i * 7) % 1000) * 0.002;`. -/
def initLoop (s : DState) : ℕ → DState
  | 0 => s
  | k + 1 =>
    let s' := initLoop s k
    { s' with
      x := Function.update s'.x k ((k % 1000 : ℕ) * (0.001 : ℚ))
      y := Function.update s'.y k ((k * 7 % 1000 : ℕ) * (0.002 : ℚ)) }

/-- `init_data(x, y, n)` from `main.c`. -/
def init_data (n : ℕ) (s : DState) : DState :=
  initLoop s n

/-- A C `double` as seen by the correctness checker: `none` is NaN,
`some q` a (finite) numeric value. -/
def FP : Type := Option ℚ

/-- IEEE subtraction as used in `ref[i] - test[i]`: NaN propagates. -/
def fpSub : FP → FP → FP
  | some a, some b => some (a - b)
  | _, _ => none

/-- `fabs`: NaN propagates, otherwise the absolute value. -/
def fpFabs : FP → FP
  | some a => some (if a < 0 then -a else a)
  | none => none

/-- The C comparison `diff > EPS`: every ordered comparison with NaN is
false. -/
def fpGtEps : FP → Bool
  | some a => decide (EPS < a)
  | none => false

/-- The loop of `check_correctness` starting at index `i` with `k`
iterations left: returns `some j` when the first index `j ≥ i` whose
`fabs(ref[j] - test[j]) > EPS` holds is found within the window (the C
function prints `j` and returns 0 there), and `none` when the loop runs to
the end (the C function returns 1). -/
def checkAux (ref test : ℕ → FP) (i : ℕ) : ℕ → Option ℕ
  | 0 => none
  | k + 1 =>
    if fpGtEps (fpFabs (fpSub (ref i) (test i))) then some i
    else checkAux ref test (i + 1) k

/-- `check_correctness(ref, test, n)` from `main.c`, with the returned
`int` and the reported index fused: `none` models `return 1`, `some j`
models printing the mismatch at index `j` and `return 0`. -/
def check_correctness (ref test : ℕ → FP) (n : ℕ) : Option ℕ :=
  checkAux ref test 0 n

/-! ### The timing loop of `run_test`

`time_c` reads the clock, calls `daxpy_c` once, reads the clock again and
returns the difference over `CLOCKS_PER_SEC`.  The clock is outside the
program; the duration of call number `i` is taken from an oracle
`d : ℕ → ℚ`.  The benchmark loop
`for (int i = 0; i < RUNS; i++) sumC += time_c(zC, x, y, A, n);` threads
the store (every call writes into the same `zC` buffer), accumulates the
per-call durations, and — as a proof instrument — counts the kernel
invocations. -/

/-- First `k` iterations of the benchmark loop: resulting store, the
accumulated `sumC`, and the number of `daxpy_c` invocations performed. -/
def benchLoop (A : ℚ) (n : ℕ) (d : ℕ → ℚ) (s : DState) : ℕ → DState × ℚ × ℕ
  | 0 => (s, 0, 0)
  | k + 1 =>
    let r := benchLoop A n d s k
    (daxpy_c A n r.1, r.2.1 + d k, r.2.2 + 1)

/-- `avgC = sumC / RUNS` computed by `run_test` from the full loop. -/
def benchAvg (A : ℚ) (n : ℕ) (d : ℕ → ℚ) (s : DState) : ℚ :=
  (benchLoop A n d s RUNS).2.1 / (RUNS : ℚ)

/-! ### The report driver (`run_test` control flow and `main`)

Allocation is outside the program: an oracle records whether each of the
four `malloc` calls of `run_test` succeeds.  `free` on a null pointer is a
no-op, so the buffers released are exactly the successfully allocated
ones. -/

/-- The four buffers `run_test` allocates. -/
inductive Buf | x | y | zC | zA
deriving DecidableEq, Repr

/-- Outcome of the four `malloc` calls at the top of `run_test`. -/
structure AllocR where
  ax : Bool
  ay : Bool
  azC : Bool
  azA : Bool
deriving DecidableEq, Repr

/-- The buffers the oracle allocated, in declaration order. -/
def allocated (a : AllocR) : List Buf :=
  (if a.ax then [Buf.x] else []) ++ (if a.ay then [Buf.y] else []) ++
    (if a.azC then [Buf.zC] else []) ++ (if a.azA then [Buf.zA] else [])

/-- What one execution of `run_test` did. -/
structure RunReport where
  /-- `printf("Memory allocation failed.\n")` was reached. -/
  allocFailReported : Bool
  /-- buffers actually released by the `free` calls taken (a `free` of a
  null pointer releases nothing). -/
  freed : List Buf
  /-- the benchmark body (init, timing loops, check, prints) ran. -/
  benchRan : Bool
deriving DecidableEq, Repr

/-- Control flow of `run_test(n)` under allocation outcome `a`.  On
`if (!x || !y || !zC || !zA)` the function reports the failure, executes
`free(x); free(y); free(zC); free(zA);` — releasing the allocated buffers —
and returns.  Otherwise the body runs and the same four `free` calls close
the function. -/
def run_test (a : AllocR) : RunReport :=
  if a.ax && a.ay && a.azC && a.azA then
    { allocFailReported := false, freed := allocated a, benchRan := true }
  else
    { allocFailReported := true, freed := allocated a, benchRan := false }

/-- Observable phases of the process, in the order events happen. -/
inductive Ev
  | verify
  | benchStart (n : ℕ)
  | allocFail (n : ℕ)
  | benchRun (n : ℕ)
deriving DecidableEq, Repr

/-- The events `run_test(n)` contributes to the process trace. -/
def run_test_ev (a : AllocR) (n : ℕ) : List Ev :=
  Ev.benchStart n :: (if (run_test a).benchRan then [Ev.benchRun n] else [Ev.allocFail n])

/-- `main`: `verify_with_example();` then `run_test` on `1<<20`, `1<<24`,
`1<<28` in that order, then `return 0;`.  The k-th `run_test` call sees the
k-th allocation outcome of the oracle `o`. -/
def main_trace (o : ℕ → AllocR) : List Ev :=
  Ev.verify :: (run_test_ev (o 0) (2 ^ 20) ++ run_test_ev (o 1) (2 ^ 24) ++
    run_test_ev (o 2) (2 ^ 28))

/-- The value `main` returns, as a function of the same oracle: the single
`return 0;` is the only exit. -/
def main_exit (_ : ℕ → AllocR) : ℤ :=
  0

/-! ### The literal verification example

`verify_with_example` uses `A = 2.0`, `x = {1.0, 2.0, 3.0}`,
`y = {11.0, 12.0, 13.0}`, `zC = {0}`. -/

/-- The stack frame of `verify_with_example` before the kernels run. -/
def exState : DState :=
  { z := fun _ => 0
    x := fun i => ([1, 2, 3] : List ℚ).getD i 0
    y := fun i => ([11, 12, 13] : List ℚ).getD i 0 }

/-! ## Helper lemmas -/

lemma daxpyLoop_x (A : ℚ) (s : DState) (k : ℕ) : (daxpyLoop A s k).x = s.x := by
  induction k with
  | zero => rfl
  | succ k ih => simp [daxpyLoop, ih]

lemma daxpyLoop_y (A : ℚ) (s : DState) (k : ℕ) : (daxpyLoop A s k).y = s.y := by
  induction k with
  | zero => rfl
  | succ k ih => simp [daxpyLoop, ih]

lemma daxpyLoop_z_ge (A : ℚ) (s : DState) (k i : ℕ) (h : k ≤ i) :
    (daxpyLoop A s k).z i = s.z i := by
  induction k with
  | zero => rfl
  | succ k ih =>
    have hk : k ≤ i := Nat.le_of_succ_le h
    have hne : i ≠ k := fun he => absurd (he ▸ h) (by omega)
    simp [daxpyLoop, Function.update, hne, ih hk]

lemma daxpyLoop_z_lt (A : ℚ) (s : DState) (k i : ℕ) (h : i < k) :
    (daxpyLoop A s k).z i = A * s.x i + s.y i := by
  induction k with
  | zero => omega
  | succ k ih =>
    by_cases hik : i = k
    · subst hik
      simp [daxpyLoop, Function.update, daxpyLoop_x, daxpyLoop_y]
    · have hk : i < k := by omega
      simp [daxpyLoop, Function.update, hik, ih hk]

lemma daxpy_c_idem (A : ℚ) (n : ℕ) (s : DState) :
    daxpy_c A n (daxpy_c A n s) = daxpy_c A n s := by
  ext i
  · by_cases h : i < n
    · rw [show daxpy_c A n = fun s => daxpyLoop A s n from rfl]
      simp only
      rw [daxpyLoop_z_lt A _ n i h, daxpyLoop_z_lt A _ n i h,
        daxpyLoop_x, daxpyLoop_y]
    · exact daxpyLoop_z_ge A _ n i (by omega)
  · simp [daxpy_c, daxpyLoop_x]
  · simp [daxpy_c, daxpyLoop_y]

lemma benchLoop_state (A : ℚ) (n : ℕ) (d : ℕ → ℚ) (s : DState) (k : ℕ) :
    (benchLoop A n d s (k + 1)).1 = daxpy_c A n s := by
  induction k with
  | zero => rfl
  | succ k ih =>
    have ih' : daxpy_c A n (benchLoop A n d s k).1 = daxpy_c A n s := by
      simpa [benchLoop] using ih
    simp only [benchLoop]
    rw [ih', daxpy_c_idem]

lemma benchLoop_sum (A : ℚ) (n : ℕ) (d : ℕ → ℚ) (s : DState) (k : ℕ) :
    (benchLoop A n d s k).2.1 = ∑ i ∈ Finset.range k, d i := by
  induction k with
  | zero => simp [benchLoop]
  | succ k ih => simp [benchLoop, ih, Finset.sum_range_succ]

lemma benchLoop_count (A : ℚ) (n : ℕ) (d : ℕ → ℚ) (s : DState) (k : ℕ) :
    (benchLoop A n d s k).2.2 = k := by
  induction k with
  | zero => rfl
  | succ k ih => simp [benchLoop, ih]

lemma initLoop_z (s : DState) (k : ℕ) : (initLoop s k).z = s.z := by
  induction k with
  | zero => rfl
  | succ k ih => simp [initLoop, ih]

lemma initLoop_x_lt (s : DState) (k i : ℕ) (h : i < k) :
    (initLoop s k).x i = ((i % 1000 : ℕ) : ℚ) * (0.001 : ℚ) := by
  induction k with
  | zero => omega
  | succ k ih =>
    by_cases hik : i = k
    · subst hik; simp [initLoop, Function.update]
    · have hk : i < k := by omega
      simp [initLoop, Function.update, hik, ih hk]

lemma initLoop_y_lt (s : DState) (k i : ℕ) (h : i < k) :
    (initLoop s k).y i = ((i * 7 % 1000 : ℕ) : ℚ) * (0.002 : ℚ) := by
  induction k with
  | zero => omega
  | succ k ih =>
    by_cases hik : i = k
    · subst hik; simp [initLoop, Function.update]
    · have hk : i < k := by omega
      simp [initLoop, Function.update, hik, ih hk]

/-- Shorthand for the C expression `fabs(ref[i] - test[i]) > EPS` as a
`Bool`. -/
def mism (ref test : ℕ → FP) (i : ℕ) : Bool :=
  fpGtEps (fpFabs (fpSub (ref i) (test i)))

lemma checkAux_eq_none_iff (ref test : ℕ → FP) (i k : ℕ) :
    checkAux ref test i k = none ↔
      ∀ j, i ≤ j → j < i + k → mism ref test j = false := by
  induction k generalizing i with
  | zero =>
    simp only [checkAux, true_iff]
    exact fun j h1 h2 => by omega
  | succ k ih =>
    rw [checkAux]
    by_cases hg : mism ref test i = true
    · rw [if_pos (by simpa [mism] using hg)]
      simp only [reduceCtorEq, false_iff, not_forall]
      exact ⟨i, le_rfl, by omega, by simp [hg]⟩
    · rw [if_neg (by simpa [mism] using hg)]
      rw [ih (i + 1)]
      constructor
      · intro h j h1 h2
        rcases Nat.eq_or_lt_of_le h1 with he | hl
        · subst he
          revert hg
          cases mism ref test i <;> simp
        · exact h j hl (by omega)
      · exact fun h j h1 h2 => h j (by omega) (by omega)

lemma checkAux_eq_some (ref test : ℕ → FP) (i k m : ℕ)
    (h : checkAux ref test i k = some m) :
    i ≤ m ∧ m < i + k ∧ mism ref test m = true ∧
      ∀ j, i ≤ j → j < m → mism ref test j = false := by
  induction k generalizing i with
  | zero => simp [checkAux] at h
  | succ k ih =>
    rw [checkAux] at h
    by_cases hg : mism ref test i = true
    · rw [if_pos (by simpa [mism] using hg)] at h
      obtain rfl : i = m := by simpa using h
      exact ⟨le_rfl, by omega, hg, fun j h1 h2 => by omega⟩
    · rw [if_neg (by simpa [mism] using hg)] at h
      obtain ⟨h1, h2, h3, h4⟩ := ih (i + 1) h
      refine ⟨by omega, by omega, h3, fun j hj1 hj2 => ?_⟩
      rcases Nat.eq_or_lt_of_le hj1 with he | hl
      · subst he
        revert hg
        cases mism ref test i <;> simp
      · exact h4 j hl hj2

lemma fpFabs_some (a : ℚ) : fpFabs (some a) = some |a| := by
  rcases lt_or_le a 0 with h | h
  · simp [fpFabs, if_pos h, abs_of_neg h]
  · simp [fpFabs, if_neg (not_lt.mpr h), abs_of_nonneg h]

lemma mism_some (a b : ℚ) (ref test : ℕ → FP) (i : ℕ)
    (ha : ref i = some a) (hb : test i = some b) :
    mism ref test i = decide (EPS < |a - b|) := by
  simp only [mism, fpSub, ha, hb]
  rw [fpFabs_some]
  simp [fpGtEps]

/-- The extraction of `Ev.benchStart` events from a trace. -/
def benchStartSize : Ev → Option ℕ
  | Ev.benchStart n => some n
  | _ => none

/-- Modelled from the spec: the optimized kernel `daxpy_asm` has no source
in the repository (it is an external machine-code routine); the spec
describes it as "any function satisfying the DAXPY contract", i.e. it
writes `z[i] = A·x[i] + y[i]` for every `i < n`. -/
def DaxpyContract (f : ℚ → ℕ → DState → DState) : Prop :=
  ∀ A n s i, i < n → (f A n s).z i = A * s.x i + s.y i

lemma daxpy_c_contract : DaxpyContract daxpy_c :=
  fun A n s i hi => daxpyLoop_z_lt A s n i hi

/-- A second concrete store, used to exercise determinism of `init_data`. -/
def altState : DState :=
  { z := fun _ => 5, x := fun _ => 7, y := fun _ => 9 }

/-! ## Claims -/

/-- C1: `daxpy_c` writes `z[i] = A * x[i] + y[i]` for every `i ∈ [0, n)`
and writes nothing else: `z` beyond `n` and the arrays `x`, `y` are
untouched. -/
theorem daxpy_c_writes (A : ℚ) (n : ℕ) (s : DState) (i : ℕ) :
    (i < n → (daxpy_c A n s).z i = A * s.x i + s.y i) ∧
    (n ≤ i → (daxpy_c A n s).z i = s.z i) ∧
    (daxpy_c A n s).x = s.x ∧ (daxpy_c A n s).y = s.y :=
  ⟨fun h => daxpyLoop_z_lt A s n i h, fun h => daxpyLoop_z_ge A s n i h,
    daxpyLoop_x A s n, daxpyLoop_y A s n⟩

/-- Witness for C1 at `A = 2`, `n = 3`, the example store, indices 1
and 5. -/
theorem daxpy_c_writes_witness :
    (daxpy_c 2 3 exState).z 1 = 2 * exState.x 1 + exState.y 1 ∧
    (daxpy_c 2 3 exState).z 5 = exState.z 5 :=
  ⟨(daxpy_c_writes 2 3 exState 1).1 (by decide),
    (daxpy_c_writes 2 3 exState 5).2.1 (by decide)⟩

/-- C10: `daxpy_c` modifies only the output vector: `x` and `y` are
unchanged, a second call on the result changes nothing, and after any
number `k + 1` of timed benchmark iterations the store equals the store
after a single call. -/
theorem daxpy_frame (A : ℚ) (n : ℕ) (s : DState) (d : ℕ → ℚ) (k : ℕ) :
    (daxpy_c A n s).x = s.x ∧ (daxpy_c A n s).y = s.y ∧
    daxpy_c A n (daxpy_c A n s) = daxpy_c A n s ∧
    (benchLoop A n d s (k + 1)).1 = daxpy_c A n s :=
  ⟨daxpyLoop_x A s n, daxpyLoop_y A s n, daxpy_c_idem A n s,
    benchLoop_state A n d s k⟩

/-- C5: the benchmark loop performs exactly `RUNS = 30` kernel
invocations, the accumulated sum is the sum of the 30 per-call durations,
the reported average is that sum divided by 30, and every call recomputes
into the same output buffer (the final store is the one-call store). -/
theorem timing_harness_spec (A : ℚ) (n : ℕ) (d : ℕ → ℚ) (s : DState) :
    (benchLoop A n d s RUNS).2.2 = 30 ∧
    (benchLoop A n d s RUNS).2.1 = ∑ i ∈ Finset.range 30, d i ∧
    benchAvg A n d s = (∑ i ∈ Finset.range 30, d i) / 30 ∧
    (benchLoop A n d s RUNS).1 = daxpy_c A n s := by
  refine ⟨benchLoop_count A n d s RUNS, benchLoop_sum A n d s RUNS, ?_, ?_⟩
  · rw [benchAvg, benchLoop_sum]
    norm_num [RUNS]
  · exact benchLoop_state A n d s 29

/-- C3: `init_data` sets `X[i] = (i % 1000) * 0.001` and
`Y[i] = ((i * 7) % 1000) * 0.002` for every `i < n`; consequently two
calls with the same `n` agree on every initialized index, whatever the
stores held before. -/
theorem init_data_spec (n : ℕ) (s t : DState) (i : ℕ) (h : i < n) :
    (init_data n s).x i = ((i % 1000 : ℕ) : ℚ) * (0.001 : ℚ) ∧
    (init_data n s).y i = ((i * 7 % 1000 : ℕ) : ℚ) * (0.002 : ℚ) ∧
    (init_data n s).x i = (init_data n t).x i ∧
    (init_data n s).y i = (init_data n t).y i := by
  refine ⟨initLoop_x_lt s n i h, initLoop_y_lt s n i h, ?_, ?_⟩
  · rw [init_data, init_data, initLoop_x_lt s n i h, initLoop_x_lt t n i h]
  · rw [init_data, init_data, initLoop_y_lt s n i h, initLoop_y_lt t n i h]

/-- Witness for C3 at `n = 3`, `i = 2`, two different initial stores. -/
theorem init_data_spec_witness :
    (init_data 3 exState).x 2 = ((2 % 1000 : ℕ) : ℚ) * (0.001 : ℚ) ∧
    (init_data 3 exState).y 2 = ((2 * 7 % 1000 : ℕ) : ℚ) * (0.002 : ℚ) ∧
    (init_data 3 exState).x 2 = (init_data 3 altState).x 2 ∧
    (init_data 3 exState).y 2 = (init_data 3 altState).y 2 :=
  init_data_spec 3 exState altState 2 (by decide)

/-- C2: on NaN-free vectors, `check_correctness` succeeds (returns 1,
modelled `none`) iff every index `i < n` has `|ref i - test i| ≤ EPS`;
when it fails it reports an index `m < n` whose difference exceeds `EPS`
and every smaller index is within tolerance (so `m` is the smallest
failing index). -/
theorem check_correctness_spec (ref test : ℕ → ℚ) (n : ℕ) :
    (check_correctness (fun i => some (ref i)) (fun i => some (test i)) n = none ↔
      ∀ i, i < n → |ref i - test i| ≤ EPS) ∧
    ∀ m, check_correctness (fun i => some (ref i)) (fun i => some (test i)) n = some m →
      m < n ∧ EPS < |ref m - test m| ∧ ∀ j, j < m → |ref j - test j| ≤ EPS := by
  constructor
  · rw [check_correctness, checkAux_eq_none_iff]
    constructor
    · intro h i hi
      have hh := h i (Nat.zero_le i) (by omega)
      rw [mism_some (ref i) (test i) _ _ i rfl rfl] at hh
      simpa using hh
    · intro h j _ h2
      rw [mism_some (ref j) (test j) _ _ j rfl rfl]
      simpa using h j (by omega)
  · intro m hm
    obtain ⟨_, h2, h3, h4⟩ := checkAux_eq_some _ _ 0 n m hm
    rw [mism_some (ref m) (test m) _ _ m rfl rfl] at h3
    refine ⟨by omega, by simpa using h3, fun j hj => ?_⟩
    have hh := h4 j (Nat.zero_le j) hj
    rw [mism_some (ref j) (test j) _ _ j rfl rfl] at hh
    simpa using hh

/-- Reference vector of the C2 witness: all zeros. -/
def cref : ℕ → ℚ := fun _ => 0

/-- Test vector of the C2 witness: a deviation of 1 (far above `EPS`) at
index 5 only. -/
def ctest : ℕ → ℚ := fun i => if i = 5 then 1 else 0

/-- Witness for C2: on a pair of length-8 vectors deviating only at
index 5, the checker reports index 5, its difference exceeds `EPS`, and
all smaller indices are within tolerance. -/
theorem check_correctness_spec_witness :
    5 < 8 ∧ EPS < |cref 5 - ctest 5| ∧ ∀ j, j < 5 → |cref j - ctest j| ≤ EPS :=
  (check_correctness_spec cref ctest 8).2 5 (by
    norm_num [check_correctness, checkAux, cref, ctest, fpSub, fpFabs, fpGtEps, EPS])

/-- C9: an index where `ref` or `test` is NaN is never a mismatch (the C
comparison `diff > EPS` is false on NaN), so a vector pair whose only
deviations produce NaN still makes `check_correctness` return 1. -/
theorem nan_not_mismatch (ref test : ℕ → FP) (n : ℕ) :
    (∀ i, ref i = none ∨ test i = none → mism ref test i = false) ∧
    ((∀ i, i < n → ref i = none ∨ test i = none ∨
        ∃ a b, ref i = some a ∧ test i = some b ∧ |a - b| ≤ EPS) →
      check_correctness ref test n = none) := by
  have key : ∀ i, ref i = none ∨ test i = none → mism ref test i = false := by
    intro i hi
    rcases hi with hr | ht
    · simp [mism, fpSub, hr, fpGtEps, fpFabs]
    · cases hr : ref i <;> simp [mism, fpSub, hr, ht, fpGtEps, fpFabs]
  refine ⟨key, fun h => ?_⟩
  rw [check_correctness, checkAux_eq_none_iff]
  intro j _ hj
  rcases h j (by omega) with hr | ht | ⟨a, b, ha, hb, hab⟩
  · exact key j (Or.inl hr)
  · exact key j (Or.inr ht)
  · rw [mism_some a b ref test j ha hb]
    simpa using hab

/-- Reference vector of the C9 witness: NaN at index 1, zero elsewhere. -/
def nref : ℕ → FP := fun i => if i = 1 then none else some 0

/-- Test vector of the C9 witness: NaN at index 2, zero elsewhere. -/
def ntest : ℕ → FP := fun i => if i = 2 then none else some 0

/-- Witness for C9: vectors of length 4 whose only deviations are NaNs at
indices 1 and 2 still pass the checker. -/
theorem nan_not_mismatch_witness : check_correctness nref ntest 4 = none := by
  refine (nan_not_mismatch nref ntest 4).2 ?_
  intro i hi
  interval_cases i
  · exact Or.inr (Or.inr ⟨0, 0, rfl, rfl, by norm_num [EPS]⟩)
  · exact Or.inl rfl
  · exact Or.inr (Or.inl rfl)
  · exact Or.inr (Or.inr ⟨0, 0, rfl, rfl, by norm_num [EPS]⟩)

/-- C4: when any of the four `malloc` calls fails, `run_test` reports the
failure, releases exactly the buffers that were allocated, skips the
benchmark body, and — whatever the allocation outcomes — `main` still
starts the run for every one of the three sizes. -/
theorem alloc_failure_local (a : AllocR) (o : ℕ → AllocR)
    (h : ¬(a.ax = true ∧ a.ay = true ∧ a.azC = true ∧ a.azA = true)) :
    (run_test a).allocFailReported = true ∧
    (run_test a).freed = allocated a ∧
    (run_test a).benchRan = false ∧
    Ev.benchStart (2 ^ 20) ∈ main_trace o ∧
    Ev.benchStart (2 ^ 24) ∈ main_trace o ∧
    Ev.benchStart (2 ^ 28) ∈ main_trace o := by
  have hc : (a.ax && a.ay && a.azC && a.azA) = false := by
    revert h
    cases a.ax <;> cases a.ay <;> cases a.azC <;> cases a.azA <;> simp
  refine ⟨by simp [run_test, hc], by simp [run_test, hc], by simp [run_test, hc],
    ?_, ?_, ?_⟩ <;> simp [main_trace, run_test_ev]

/-- Witness for C4: the third `malloc` (for `zC`) fails, all allocation
attempts of every size fail. -/
theorem alloc_failure_local_witness :
    (run_test ⟨true, true, false, true⟩).allocFailReported = true ∧
    (run_test ⟨true, true, false, true⟩).freed = allocated ⟨true, true, false, true⟩ ∧
    (run_test ⟨true, true, false, true⟩).benchRan = false ∧
    Ev.benchStart (2 ^ 20) ∈ main_trace (fun _ => ⟨true, true, false, true⟩) ∧
    Ev.benchStart (2 ^ 24) ∈ main_trace (fun _ => ⟨true, true, false, true⟩) ∧
    Ev.benchStart (2 ^ 28) ∈ main_trace (fun _ => ⟨true, true, false, true⟩) :=
  alloc_failure_local ⟨true, true, false, true⟩ (fun _ => ⟨true, true, false, true⟩)
    (by simp)

/-- C7: under every allocation oracle, the trace of `main` opens with the
verification phase, contains it exactly once, and the benchmark starts
are exactly the three sizes `2^20`, `2^24`, `2^28` in that order. -/
theorem phase_order (o : ℕ → AllocR) :
    (main_trace o).head? = some Ev.verify ∧
    (main_trace o).count Ev.verify = 1 ∧
    (main_trace o).filterMap benchStartSize = [2 ^ 20, 2 ^ 24, 2 ^ 28] := by
  refine ⟨rfl, ?_, ?_⟩ <;>
    cases h0 : (run_test (o 0)).benchRan <;>
    cases h1 : (run_test (o 1)).benchRan <;>
    cases h2 : (run_test (o 2)).benchRan <;>
    simp [main_trace, run_test_ev, h0, h1, h2, benchStartSize, List.count_cons,
      List.count_append]

/-- C8: `main` returns 0 under every allocation oracle; no other exit
value exists. -/
theorem exit_status_zero (o : ℕ → AllocR) : main_exit o = 0 :=
  rfl

/-- Counterexample to C6 as stated: on the literal example `A = 2`,
`X = [1, 2, 3]`, `Y = [11, 12, 13]` the reference kernel produces
`z[0] = 2 * 1 + 11 = 13`, not the claimed `15`. -/
theorem example_claim_false :
    (daxpy_c 2 3 exState).z 0 = 13 ∧ ¬(daxpy_c 2 3 exState).z 0 = 15 := by
  have h : (daxpy_c 2 3 exState).z 0 = 13 := by
    rw [(daxpy_c_contract 2 3 exState 0 (by norm_num) : _)]
    norm_num [exState]
  exact ⟨h, by rw [h]; norm_num⟩

/-- C6 amended: on the literal example the reference kernel — and any
kernel satisfying the DAXPY contract, as the spec requires of the
optimized kernel — produces `Z = [13, 16, 19]` exactly. -/
theorem example_amended :
    ((daxpy_c 2 3 exState).z 0 = 13 ∧ (daxpy_c 2 3 exState).z 1 = 16 ∧
      (daxpy_c 2 3 exState).z 2 = 19) ∧
    ∀ f, DaxpyContract f →
      (f 2 3 exState).z 0 = 13 ∧ (f 2 3 exState).z 1 = 16 ∧
        (f 2 3 exState).z 2 = 19 := by
  have key : ∀ f, DaxpyContract f →
      (f 2 3 exState).z 0 = 13 ∧ (f 2 3 exState).z 1 = 16 ∧
        (f 2 3 exState).z 2 = 19 := by
    intro f hf
    refine ⟨?_, ?_, ?_⟩ <;>
      rw [(hf 2 3 exState _ (by norm_num) : _)] <;> norm_num [exState]
  exact ⟨key daxpy_c daxpy_c_contract, key⟩

/-- Witness for C6 (amended): the contract hypothesis discharged with the
reference kernel itself. -/
theorem example_amended_witness :
    (daxpy_c 2 3 exState).z 0 = 13 ∧ (daxpy_c 2 3 exState).z 1 = 16 ∧
      (daxpy_c 2 3 exState).z 2 = 19 :=
  example_amended.2 daxpy_c daxpy_c_contract

end MP2
